import Mathlib

/-!
Shallow embedding of `src/Profiler.py` (the actinium repository).

Modelling choices:
* `time.perf_counter()` and `datetime.datetime.now()` readings are modelled as
  rationals (`ℚ`).  Every operation that reads a clock in Python takes the
  reading as an explicit argument here.
* The Postgres connection is modelled by an explicit `DB` value that is
  threaded through the operations.  Only the observable store state matters:
  `committed` is the list of rows of `profiler.events` made durable by
  `commit()`; rows passed to `cursor.execute` but never committed are rolled
  back and are not observable, so they do not appear in `DB`.
* A store operation may raise.  `FailSpec` says which `cursor.execute` call
  inside one `flush` raises (`insertFailAt`, counted from 0 in the flush loop)
  and whether the final `self.db.commit()` raises (`commitFails`).  A function
  returns `(state, db, ok)` where `ok = false` means the Python exception
  propagated at exactly that point, with all mutations performed so far kept.
* `strftime` formatting of the converted wall-clock datetimes is abstracted
  away: a `Row` stores the wall-clock value `created + (t - offset)` that the
  source formats (spec §9 treats the textual format as incidental).
-/

/-- Embeds `class Event` (`src/Profiler.py` lines 19–29).  `end_` stands for
the Python attribute `end` (`end` is a Lean keyword); `none` is Python's
`None`. -/
structure Event where
  state : String
  comment : Option String
  records : Option Int
  start : ℚ
  end_ : Option ℚ
deriving DecidableEq

/-- Embeds `Event.set_end` (line 28–29): `self.end = counter`. -/
def Event.set_end (e : Event) (counter : ℚ) : Event :=
  { e with end_ := some counter }

/-- The in-memory state of `class Profiler` (lines 31–41): `name`, `pid`,
`events`, and the three clock readings taken in `__init__` (`self.start`,
`self.offset`, `self.created`).  The DB connection is threaded separately. -/
structure Profiler where
  name : String
  pid : Nat
  events : List Event
  start : ℚ
  offset : ℚ
  created : ℚ
deriving DecidableEq

/-- One row of the `profiler.events` table, in the column order of the INSERT
at line 93: `(profile_id, state, started, ended, records, comment)`. -/
structure Row where
  profile_id : Nat
  state : String
  started : ℚ
  ended : ℚ
  records : Option Int
  comment : Option String
deriving DecidableEq

/-- Observable state of the store: durably committed event rows, whether the
`profiler.profiles` registry row for this profile has its `ended` column set
(the UPDATE at line 50), and whether the connection was closed (line 54). -/
structure DB where
  committed : List Row
  ended : Bool
  closed : Bool
deriving DecidableEq

/-- Which store calls raise during one `flush`: `insertFailAt = some k` makes
the k-th `cursor.execute` of the flush loop raise; `commitFails` makes the
final `self.db.commit()` raise. -/
structure FailSpec where
  insertFailAt : Option Nat
  commitFails : Bool
deriving DecidableEq

/-- The store never raises. -/
def noFail : FailSpec := ⟨none, false⟩

/-- Embeds line 109, `self.events[-1].set_end(self.events[-1].start)`:
replace the last element of the list by itself with `end` set to its own
`start`.  (Note the source reads `events[-1]` twice, i.e. the event just
appended, not `events[-2]`.) -/
def setLastEnd (es : List Event) : List Event :=
  match es.getLast? with
  | none => es
  | some e => es.dropLast ++ [e.set_end e.start]

/-- Embeds `Profiler.append` (lines 106–109), with `now` the
`time.perf_counter()` reading taken inside `Event.__init__`:

    self.events.append(Event(state, comment=comment, records=records))
    if len(self.events) > 1:
        self.events[-1].set_end(self.events[-1].start)
-/
def Profiler.append (p : Profiler) (state : String) (comment : Option String)
    (records : Option Int) (now : ℚ) : Profiler :=
  let events1 := p.events ++ [⟨state, comment, records, now, none⟩]
  if 1 < events1.length then { p with events := setLastEnd events1 }
  else { p with events := events1 }

/-- Embeds the flush loop (lines 95–99)

    for i in range(len(self.events)-1):
        self.events[i].set_end(self.events[i+1].start)
        start = (self.created + timedelta(seconds=self.events[i].start-self.offset)).strftime(...)
        end   = (self.created + timedelta(seconds=self.events[i].end-self.offset)).strftime(...)
        cursor.execute(sql, [self.pid, ..., start, end, ...])

as structural recursion over adjacent pairs: index i holds event `e`, index
i+1 holds `f`; the last element is never touched.  `k` is the running loop
index matched against `failAt`.  Returns the mutated event list, the rows
passed to `cursor.execute` so far, and whether the loop finished without an
exception (the k-th `execute` raises after `set_end` has already mutated
events[k]).  `self.events[i].end` at the execute is `f.start`, just assigned. -/
def flushEvents (pid : Nat) (created offset : ℚ) (failAt : Option Nat) :
    Nat → List Event → List Event × List Row × Bool
  | _, [] => ([], [], true)
  | _, [e] => ([e], [], true)
  | k, e :: f :: rest =>
    let e1 := e.set_end f.start
    if failAt = some k then (e1 :: f :: rest, [], false)
    else
      let row : Row := ⟨pid, e1.state, created + (e1.start - offset),
                        created + (f.start - offset), e1.records, e1.comment⟩
      let r2 := flushEvents pid created offset failAt (k + 1) (f :: rest)
      (e1 :: r2.1, row :: r2.2.1, r2.2.2)

/-- Body of `Profiler.flush` (lines 88–104) for a non-empty buffer, with
`lastEv = self.events[-1]` read at entry, `tHK` the clock reading of the
housekeeping `append` (line 92) and `tResume` that of the final re-`append`
(line 104).  Faithful statement order:

    prev_state, prev_comment, prev_records = last event's fields   (89–91)
    self.append("Profiler Housekeeping")                           (92)
    for-loop of INSERTs                                            (95–99)
    self.events = self.events[-1:]                                 (101)
    self.db.commit()                                               (102)
    self.append(prev_state, comment=prev_comment, records=prev_records)  (104)

If an `execute` raises, the exception propagates before the truncation at
line 101; if `commit` raises, it propagates after the truncation but before
the re-append. -/
def flushBody (p : Profiler) (db : DB) (fs : FailSpec) (tHK tResume : ℚ)
    (lastEv : Event) : Profiler × DB × Bool :=
  let prev_state := lastEv.state
  let prev_comment := lastEv.comment
  let prev_records := lastEv.records
  let p1 := p.append "Profiler Housekeeping" none none tHK
  let r := flushEvents p.pid p.created p.offset fs.insertFailAt 0 p1.events
  if r.2.2 then
    let p2 := { p1 with events := r.1.drop (r.1.length - 1) }
    if fs.commitFails then (p2, db, false)
    else
      let db2 := { db with committed := db.committed ++ r.2.1 }
      (p2.append prev_state prev_comment prev_records tResume, db2, true)
  else
    ({ p1 with events := r.1 }, db, false)

/-- Embeds `Profiler.flush` (lines 83–104).  `if self.events:` is the match
on `getLast?`: an empty buffer is falsy and the whole body is skipped. -/
def Profiler.flush (p : Profiler) (db : DB) (fs : FailSpec) (tHK tResume : ℚ) :
    Profiler × DB × Bool :=
  match p.events.getLast? with
  | none => (p, db, true)
  | some lastEv => flushBody p db fs tHK tResume lastEv

/-- Embeds `Profiler.__exit__` (lines 46–54): `self.flush()`, then the UPDATE
of `profiler.profiles ... SET ended=current_timestamp`, `commit`, and
`self.db.close()`.  There is no `try/finally` in the source: if `flush`
raises, the exception propagates and none of the later statements run (the
registry UPDATE, commit and close are modelled as succeeding when reached). -/
def Profiler.exit (p : Profiler) (db : DB) (fs : FailSpec) (tHK tResume : ℚ) :
    Profiler × DB × Bool :=
  let r := p.flush db fs tHK tResume
  if r.2.2 then (r.1, { r.2.1 with ended := true, closed := true }, true)
  else r

/-- The wall-clock conversion applied at lines 97–98:
`self.created + timedelta(seconds = t - self.offset)`. -/
def wallClock (p : Profiler) (t : ℚ) : ℚ := p.created + (t - p.offset)

/-- The housekeeping event appended at line 92 when the buffer was non-empty:
its `end` is set to its own `start` by the line-109 assignment. -/
def hkEvent (t : ℚ) : Event := ⟨"Profiler Housekeeping", none, none, t, some t⟩

/-- The event re-appended at line 104, carrying the saved fields of the
pre-flush active event; line 109 sets its `end` to its own `start`. -/
def resumedEvent (e : Event) (t : ℚ) : Event :=
  ⟨e.state, e.comment, e.records, t, some t⟩

/-- The row the flush loop builds for adjacent events `e`, `f`. -/
def mkRow (pid : Nat) (created offset : ℚ) (e f : Event) : Row :=
  ⟨pid, e.state, created + (e.start - offset), created + (f.start - offset),
   e.records, e.comment⟩

/-- The rows a fully successful flush of `p` commits: one per adjacent pair
of the buffer after the housekeeping append. -/
def flushRows (p : Profiler) (tHK : ℚ) : List Row :=
  List.zipWith (mkRow p.pid p.created p.offset)
    (p.events ++ [hkEvent tHK]) (p.events ++ [hkEvent tHK]).tail

/-! Helper lemmas about the embedded operations. -/

theorem setLastEnd_concat (es : List Event) (x : Event) :
    setLastEnd (es ++ [x]) = es ++ [x.set_end x.start] := by
  unfold setLastEnd
  rw [List.getLast?_concat, List.dropLast_concat]

theorem append_events_empty (p : Profiler) (s : String) (c : Option String)
    (r : Option Int) (now : ℚ) (h : p.events = []) :
    (p.append s c r now).events = [⟨s, c, r, now, none⟩] := by
  simp [Profiler.append, h]

theorem append_events_ne (p : Profiler) (s : String) (c : Option String)
    (r : Option Int) (now : ℚ) (h : p.events ≠ []) :
    (p.append s c r now).events = p.events ++ [⟨s, c, r, now, some now⟩] := by
  have hlen : 1 < (p.events ++ [(⟨s, c, r, now, none⟩ : Event)]).length := by
    have h0 : 0 < p.events.length := List.length_pos.mpr h
    simp only [List.length_append, List.length_singleton]
    omega
  simp only [Profiler.append, if_pos hlen, setLastEnd_concat]
  rfl

theorem append_eq_events (p : Profiler) (s : String) (c : Option String)
    (r : Option Int) (now : ℚ) :
    p.append s c r now = { p with events := (p.append s c r now).events } := by
  unfold Profiler.append
  dsimp only
  split <;> rfl

theorem append_frame (p : Profiler) (s : String) (c : Option String)
    (r : Option Int) (now : ℚ) :
    (p.append s c r now).name = p.name ∧ (p.append s c r now).pid = p.pid ∧
      (p.append s c r now).start = p.start ∧ (p.append s c r now).offset = p.offset ∧
      (p.append s c r now).created = p.created := by
  rw [append_eq_events]
  exact ⟨rfl, rfl, rfl, rfl, rfl⟩

theorem drop_length_sub_one {α : Type _} (l : List α) :
    l.drop (l.length - 1) = l.getLast?.toList := by
  induction l with
  | nil => rfl
  | cons a tl ih =>
    cases tl with
    | nil => rfl
    | cons b l2 =>
      rw [List.getLast?_cons_cons, ← ih]
      rfl

theorem flushEvents_length (pid : Nat) (c o : ℚ) (fa : Option Nat) (k : Nat)
    (es : List Event) : (flushEvents pid c o fa k es).1.length = es.length := by
  induction es generalizing k with
  | nil => rfl
  | cons e tl ih =>
    cases tl with
    | nil => rfl
    | cons f rest =>
      simp only [flushEvents]
      split
      · rfl
      · simpa using ih (k + 1)

theorem flushEvents_states (pid : Nat) (c o : ℚ) (fa : Option Nat) (k : Nat)
    (es : List Event) :
    (flushEvents pid c o fa k es).1.map Event.state = es.map Event.state := by
  induction es generalizing k with
  | nil => rfl
  | cons e tl ih =>
    cases tl with
    | nil => rfl
    | cons f rest =>
      simp only [flushEvents]
      split
      · rfl
      · simp [Event.set_end, ih (k + 1)]

theorem flushEvents_getLast (pid : Nat) (c o : ℚ) (fa : Option Nat) (k : Nat)
    (es : List Event) :
    (flushEvents pid c o fa k es).1.getLast? = es.getLast? := by
  induction es generalizing k with
  | nil => rfl
  | cons e tl ih =>
    cases tl with
    | nil => rfl
    | cons f rest =>
      simp only [flushEvents]
      split
      · rw [List.getLast?_cons_cons, List.getLast?_cons_cons]
      · have hlen := flushEvents_length pid c o fa (k + 1) (f :: rest)
        have ihk := ih (k + 1)
        cases hr : (flushEvents pid c o fa (k + 1) (f :: rest)).1 with
        | nil => rw [hr] at hlen; simp at hlen
        | cons x xs =>
          rw [hr] at ihk
          simp only [List.getLast?_cons_cons]
          exact ihk

theorem flushEvents_none_ok (pid : Nat) (c o : ℚ) (k : Nat) (es : List Event) :
    (flushEvents pid c o none k es).2.2 = true := by
  induction es generalizing k with
  | nil => rfl
  | cons e tl ih =>
    cases tl with
    | nil => rfl
    | cons f rest =>
      simp only [flushEvents]
      split
      · simp_all
      · simpa using ih (k + 1)

theorem flushEvents_none_rows (pid : Nat) (c o : ℚ) (k : Nat) (es : List Event) :
    (flushEvents pid c o none k es).2.1 =
      List.zipWith (mkRow pid c o) es es.tail := by
  induction es generalizing k with
  | nil => rfl
  | cons e tl ih =>
    cases tl with
    | nil => rfl
    | cons f rest =>
      simp only [flushEvents]
      split
      · simp_all
      · simpa [mkRow, Event.set_end] using ih (k + 1)

theorem flushEvents_fail (pid : Nat) (c o : ℚ) (j : Nat) (k : Nat)
    (es : List Event) (hkj : k ≤ j) (hj : j + 1 < k + es.length) :
    (flushEvents pid c o (some j) k es).2.2 = false := by
  induction es generalizing k with
  | nil => simp at hj; omega
  | cons e tl ih =>
    cases tl with
    | nil => simp at hj; omega
    | cons f rest =>
      simp only [flushEvents]
      split
      · rfl
      · rename_i hne
        have hkj1 : k + 1 ≤ j := by
          rcases Nat.lt_or_ge k j with h1 | h1
          · omega
          · exact absurd (by omega : j = k) (by simpa using hne)
        have : j + 1 < (k + 1) + (f :: rest).length := by
          simp only [List.length_cons] at hj ⊢
          omega
        simpa using ih (k + 1) hkj1 this

theorem flush_eq_body (p : Profiler) (db : DB) (fs : FailSpec) (t1 t2 : ℚ)
    (e : Event) (h : p.events.getLast? = some e) :
    p.flush db fs t1 t2 = flushBody p db fs t1 t2 e := by
  unfold Profiler.flush
  rw [h]

theorem flush_empty (p : Profiler) (db : DB) (fs : FailSpec) (t1 t2 : ℚ)
    (h : p.events = []) : p.flush db fs t1 t2 = (p, db, true) := by
  unfold Profiler.flush
  rw [h]
  rfl

theorem getLast_ne_nil {es : List Event} {e : Event}
    (h : es.getLast? = some e) : es ≠ [] := by
  intro h0
  rw [h0] at h
  simp at h

theorem flush_noFail_spec (p : Profiler) (db : DB) (t1 t2 : ℚ) (e : Event)
    (h : p.events.getLast? = some e) :
    p.flush db noFail t1 t2 =
      ({ p with events := [hkEvent t1, resumedEvent e t2] },
       { db with committed := db.committed ++ flushRows p t1 }, true) := by
  have hne : p.events ≠ [] := getLast_ne_nil h
  have hp1ev : (p.append "Profiler Housekeeping" none none t1).events
      = p.events ++ [hkEvent t1] := append_events_ne p _ none none t1 hne
  rw [flush_eq_body p db noFail t1 t2 e h]
  unfold flushBody
  dsimp only [noFail]
  rw [append_eq_events p "Profiler Housekeeping" none none t1, hp1ev]
  have hok := flushEvents_none_ok p.pid p.created p.offset 0
      (p.events ++ [hkEvent t1])
  have hrows := flushEvents_none_rows p.pid p.created p.offset 0
      (p.events ++ [hkEvent t1])
  have hlast := flushEvents_getLast p.pid p.created p.offset none 0
      (p.events ++ [hkEvent t1])
  rw [hok, if_pos rfl]
  rw [if_neg (by simp : ¬ false = true)]
  rw [drop_length_sub_one, hlast, List.getLast?_concat, hrows]
  rfl

theorem flush_insertFail_spec (p : Profiler) (db : DB) (t1 t2 : ℚ) (e : Event)
    (j : Nat) (cf : Bool) (h : p.events.getLast? = some e)
    (hj : j < p.events.length) :
    (p.flush db ⟨some j, cf⟩ t1 t2).1.events.map Event.state
        = p.events.map Event.state ++ ["Profiler Housekeeping"] ∧
      (p.flush db ⟨some j, cf⟩ t1 t2).2.1 = db ∧
      (p.flush db ⟨some j, cf⟩ t1 t2).2.2 = false := by
  have hne : p.events ≠ [] := getLast_ne_nil h
  have hp1ev : (p.append "Profiler Housekeeping" none none t1).events
      = p.events ++ [hkEvent t1] := append_events_ne p _ none none t1 hne
  rw [flush_eq_body p db ⟨some j, cf⟩ t1 t2 e h]
  unfold flushBody
  dsimp only
  rw [append_eq_events p "Profiler Housekeeping" none none t1, hp1ev]
  have hfail : (flushEvents p.pid p.created p.offset (some j) 0
      (p.events ++ [hkEvent t1])).2.2 = false := by
    apply flushEvents_fail
    · exact Nat.zero_le j
    · simp only [List.length_append, List.length_singleton]
      omega
  show ((if (flushEvents p.pid p.created p.offset (some j) 0
          (p.events ++ [hkEvent t1])).2.2 = true then _ else _ :
        Profiler × DB × Bool).1.events.map Event.state = _) ∧ _
  rw [hfail, if_neg (by simp)]
  refine ⟨?_, rfl, rfl⟩
  rw [flushEvents_states]
  simp [hkEvent]

theorem flush_commitFail_spec (p : Profiler) (db : DB) (t1 t2 : ℚ) (e : Event)
    (h : p.events.getLast? = some e) :
    p.flush db ⟨none, true⟩ t1 t2 =
      ({ p with events := [hkEvent t1] }, db, false) := by
  have hne : p.events ≠ [] := getLast_ne_nil h
  have hp1ev : (p.append "Profiler Housekeeping" none none t1).events
      = p.events ++ [hkEvent t1] := append_events_ne p _ none none t1 hne
  rw [flush_eq_body p db ⟨none, true⟩ t1 t2 e h]
  unfold flushBody
  dsimp only
  rw [append_eq_events p "Profiler Housekeeping" none none t1, hp1ev]
  have hok := flushEvents_none_ok p.pid p.created p.offset 0
      (p.events ++ [hkEvent t1])
  have hlast := flushEvents_getLast p.pid p.created p.offset none 0
      (p.events ++ [hkEvent t1])
  show (if (flushEvents p.pid p.created p.offset none 0
        (p.events ++ [hkEvent t1])).2.2 = true then _ else _) = _
  rw [hok, if_pos rfl]
  show (if true = true then _ else _) = _
  rw [if_pos rfl]
  rw [drop_length_sub_one, hlast, List.getLast?_concat]
  rfl

theorem zipWith_mkRow_states (pid : Nat) (c o : ℚ) (es : List Event) :
    (List.zipWith (mkRow pid c o) es es.tail).map Row.state
      = es.dropLast.map Event.state := by
  induction es with
  | nil => rfl
  | cons e tl ih =>
    cases tl with
    | nil => rfl
    | cons f rest =>
      simp only [List.tail_cons] at ih ⊢
      show ((mkRow pid c o e f) :: List.zipWith (mkRow pid c o) (f :: rest) rest).map
          Row.state = ((e :: f :: rest).dropLast).map Event.state
      simp only [List.map_cons]
      rw [ih]
      rfl

theorem flushRows_length (p : Profiler) (t1 : ℚ) :
    (flushRows p t1).length = p.events.length := by
  unfold flushRows
  rw [List.length_zipWith, List.length_tail]
  rw [Nat.min_eq_right (Nat.sub_le _ _)]
  simp

theorem flushRows_states (p : Profiler) (t1 : ℚ) :
    (flushRows p t1).map Row.state = p.events.map Event.state := by
  unfold flushRows
  rw [zipWith_mkRow_states, List.dropLast_concat]

/-! Concrete fixtures used by the evaluation theorems below. -/

/-- An empty store. -/
def db0 : DB := ⟨[], false, false⟩

/-- A freshly constructed profiler with no buffered events (all clock readings
at 0). -/
def mkProfiler (nm : String) (pid : Nat) : Profiler := ⟨nm, pid, [], 0, 0, 0⟩

/-! Claim theorems. -/

/-- A profiler after `append("A")` at monotonic time 0 and `append("B")` at
monotonic time 1. -/
def pC1 : Profiler :=
  ((mkProfiler "Test" 1).append "A" none none 0).append "B" none none 1

/-- C1: the claim says that after each `append` every event except the last
has `end` set and `end[i] = start[i+1]`, the previous event's `end` being set
to the new event's `start`.  Evaluating the code at the failing input
(`append("A")` at t=0 then `append("B")` at t=1) shows line 109 instead sets
the NEW event's `end` to its own `start` and leaves the previous event's
`end` unset: the buffer's `end` fields are `[None, 1]` where the claim
requires `[1, None]`.  (`flush` later recomputes the ends at line 96, which
is how the author's contiguity intent shows; line 109 reads `events[-1]`
where only `events[-2]` matches that intent.) -/
theorem C1_append_sets_new_end_not_previous :
    pC1.events.map Event.end_ = [none, some 1] ∧
      pC1.events.map Event.start = [0, 1] ∧
      pC1.events.map Event.end_ ≠ [some 1, none] := by decide

/-- A profiler after `append("X")` at t=5 and `append("Y")` at t=7. -/
def pC6 : Profiler :=
  ((mkProfiler "T6" 2).append "X" none none 5).append "Y" none none 7

/-- C6: the claimed buffer invariant says `end` is unset only for the single
most-recent event and every earlier event has `end` set.  Evaluating the code
after two appends shows the opposite: the earlier event's `end` is unset and
the most-recent event's `end` IS set (to its own `start`), again due to
line 109 using `events[-1]` instead of `events[-2]`. -/
theorem C6_invariant_violated_after_append :
    pC6.events.map Event.end_ = [none, some 7] ∧
      (pC6.events.getLast?).map Event.end_ = some (some 7) ∧
      (pC6.events.head?).map Event.end_ = some none := by decide

/-- C9: `flush` on an empty buffer is a no-op — no store I/O (the store state
is returned unchanged even under a failure specification, because no store
call is made), no exception (`ok = true`), and the profiler is returned with
every field unchanged.  This is line 88, `if self.events:`. -/
theorem C9_flush_empty_noop (p : Profiler) (db : DB) (fs : FailSpec)
    (t1 t2 : ℚ) (h : p.events = []) : p.flush db fs t1 t2 = (p, db, true) :=
  flush_empty p db fs t1 t2 h

/-- Witness for C9 at a concrete input: a fresh profiler, a store whose very
first insert and commit would both fail — flush still no-ops. -/
theorem C9_flush_empty_noop_witness :
    (mkProfiler "T9" 8).flush db0 ⟨some 0, true⟩ 1 2 =
      (mkProfiler "T9" 8, db0, true) :=
  C9_flush_empty_noop (mkProfiler "T9" 8) db0 ⟨some 0, true⟩ 1 2 rfl

/-- C10: `append` performs no validation: for every state string (including
the empty string) and every combination of comment/records (present or
absent), it totally succeeds and appends an Event carrying exactly the given
state, comment, records and the current monotonic time as `start`
(lines 106–109 and 21–26 contain no checks). -/
theorem C10_append_no_validation (p : Profiler) (s : String) (c : Option String)
    (r : Option Int) (now : ℚ) :
    (p.append s c r now).events.length = p.events.length + 1 ∧
      ∃ lastEv : Event, (p.append s c r now).events.getLast? = some lastEv ∧
        lastEv.state = s ∧ lastEv.comment = c ∧ lastEv.records = r ∧
        lastEv.start = now := by
  by_cases hev : p.events = []
  · rw [append_events_empty p s c r now hev, hev]
    exact ⟨rfl, ⟨s, c, r, now, none⟩, rfl, rfl, rfl, rfl, rfl⟩
  · rw [append_events_ne p s c r now hev]
    refine ⟨by simp, ⟨s, c, r, now, some now⟩, ?_, rfl, rfl, rfl, rfl⟩
    rw [List.getLast?_concat]

/-- A profiler holding one buffered event, state "A", appended at t=1. -/
def pC2 : Profiler := (mkProfiler "T2" 3).append "A" none none 1

/-- The result of flushing `pC2` against an empty store with no failures
(housekeeping append at t=2, resume append at t=3). -/
def rC2 : Profiler × DB × Bool := pC2.flush db0 noFail 2 3

/-- C2 counterexample: on a buffer of N = 1 events, flush persists 1 row but
that row is the original event "A", NOT the synthetic housekeeping row, and
the buffer afterwards holds TWO events, not one.  This refutes both the
"including the synthetic housekeeping row" part and the "exactly one Event in
the buffer afterward" part of the claim. -/
theorem C2_counterexample :
    rC2.1.events.length = 2 ∧ rC2.1.events.length ≠ 1 ∧
      rC2.2.1.committed.map Row.state = ["A"] ∧
      "Profiler Housekeeping" ∉ rC2.2.1.committed.map Row.state := by decide

/-- C2 amended: `flush` on a buffer of N ≥ 1 events persists exactly N rows —
the N pre-flush events in order (the housekeeping row is persisted only by
the NEXT flush) — and leaves exactly TWO events in the buffer: the
housekeeping event and a resumed event whose state/comment/records equal the
pre-flush active (last) event's. -/
theorem C2_flush_amended (p : Profiler) (db : DB) (t1 t2 : ℚ) (e : Event)
    (h : p.events.getLast? = some e) :
    (p.flush db noFail t1 t2).2.2 = true ∧
      (p.flush db noFail t1 t2).2.1.committed.length
        = db.committed.length + p.events.length ∧
      (p.flush db noFail t1 t2).2.1.committed.map Row.state
        = db.committed.map Row.state ++ p.events.map Event.state ∧
      (p.flush db noFail t1 t2).1.events = [hkEvent t1, resumedEvent e t2] := by
  rw [flush_noFail_spec p db t1 t2 e h]
  refine ⟨rfl, ?_, ?_, rfl⟩
  · rw [List.length_append, flushRows_length]
  · rw [List.map_append, flushRows_states]

/-- Witness for C2 amended at the concrete input `pC2`: 1 row is persisted
(its state is "A") and the buffer afterwards is the housekeeping event plus
the resumed "A" event. -/
theorem C2_flush_amended_witness :
    (pC2.flush db0 noFail 2 3).2.2 = true ∧
      (pC2.flush db0 noFail 2 3).2.1.committed.length
        = db0.committed.length + pC2.events.length ∧
      (pC2.flush db0 noFail 2 3).2.1.committed.map Row.state
        = db0.committed.map Row.state ++ pC2.events.map Event.state ∧
      (pC2.flush db0 noFail 2 3).1.events
        = [hkEvent 2, resumedEvent ⟨"A", none, none, 1, none⟩ 3] :=
  C2_flush_amended pC2 db0 2 3 ⟨"A", none, none, 1, none⟩ (by decide)

/-- A profiler holding one buffered event, state "B" with records 7, appended
at t=1. -/
def pC3 : Profiler := (mkProfiler "T3" 4).append "B" none (some 7) 1

/-- Flushing `pC3` when the very first INSERT raises. -/
def rC3 : Profiler × DB × Bool := pC3.flush db0 ⟨some 0, false⟩ 2 3

/-- C3 counterexample: when the store write fails, the transaction is indeed
not committed (store unchanged), but the in-memory buffer is NOT left
unmodified as the claim states: the housekeeping event appended at line 92
(before any insert) is still there, so the buffer went from 1 event to 2 and
differs from its pre-flush value. -/
theorem C3_counterexample :
    rC3.2.2 = false ∧ rC3.2.1 = db0 ∧ rC3.1.events ≠ pC3.events ∧
      rC3.1.events.length = 2 := by decide

/-- C3 amended: a failing INSERT or a failing commit leaves the transaction
uncommitted (the durable store is exactly the pre-flush store), but the
buffer is modified, not preserved: after a failing insert it holds the
pre-flush events (same states, ends reconciled up to the failure point) plus
the appended housekeeping event; after a failing commit the truncation at
line 101 has already run, so it holds ONLY the housekeeping event — the
uncommitted events are lost from memory and a retry cannot resend them. -/
theorem C3_failure_amended (p : Profiler) (db : DB) (t1 t2 : ℚ) (e : Event)
    (j : Nat) (h : p.events.getLast? = some e) (hj : j < p.events.length) :
    ((p.flush db ⟨some j, false⟩ t1 t2).2.1 = db ∧
        (p.flush db ⟨some j, false⟩ t1 t2).2.2 = false ∧
        (p.flush db ⟨some j, false⟩ t1 t2).1.events.map Event.state
          = p.events.map Event.state ++ ["Profiler Housekeeping"]) ∧
      ((p.flush db ⟨none, true⟩ t1 t2).2.1 = db ∧
        (p.flush db ⟨none, true⟩ t1 t2).2.2 = false ∧
        (p.flush db ⟨none, true⟩ t1 t2).1.events = [hkEvent t1]) := by
  obtain ⟨g1, g2, g3⟩ := flush_insertFail_spec p db t1 t2 e j false h hj
  refine ⟨⟨g2, g3, g1⟩, ?_⟩
  rw [flush_commitFail_spec p db t1 t2 e h]
  exact ⟨rfl, rfl, rfl⟩

/-- Witness for C3 amended at the concrete input `pC3` with the first insert
failing, and with the commit failing. -/
theorem C3_failure_amended_witness :
    ((pC3.flush db0 ⟨some 0, false⟩ 2 3).2.1 = db0 ∧
        (pC3.flush db0 ⟨some 0, false⟩ 2 3).2.2 = false ∧
        (pC3.flush db0 ⟨some 0, false⟩ 2 3).1.events.map Event.state
          = pC3.events.map Event.state ++ ["Profiler Housekeeping"]) ∧
      ((pC3.flush db0 ⟨none, true⟩ 2 3).2.1 = db0 ∧
        (pC3.flush db0 ⟨none, true⟩ 2 3).2.2 = false ∧
        (pC3.flush db0 ⟨none, true⟩ 2 3).1.events = [hkEvent 2]) :=
  C3_failure_amended pC3 db0 2 3 ⟨"B", none, some 7, 1, none⟩ 0 (by decide)
    (by decide)

/-- The C4 end-to-end scenario: `append("Run #0", records=100)` at t=1,
`append("Run #1", records=200)` at t=2. -/
def pC4 : Profiler :=
  ((mkProfiler "Test" 5).append "Run #0" none (some 100) 1).append
    "Run #1" none (some 200) 2

/-- Flushing the C4 scenario against an empty store with no failures
(housekeeping at t=3, resume at t=4). -/
def rC4 : Profiler × DB × Bool := pC4.flush db0 noFail 3 4

/-- C4 counterexample: the store does receive exactly 2 rows, but they are
"Run #0" and "Run #1" — no "Profiler Housekeeping" row is persisted by this
flush — and the buffer afterwards contains two events, not exactly one. -/
theorem C4_counterexample :
    rC4.2.1.committed.length = 2 ∧
      rC4.2.1.committed.map Row.state ≠ ["Run #0", "Profiler Housekeeping"] ∧
      "Profiler Housekeeping" ∉ rC4.2.1.committed.map Row.state ∧
      rC4.1.events.length ≠ 1 := by decide

/-- C4 amended: in the scenario the store receives exactly 2 rows — one for
"Run #0" with records=100 and one for "Run #1" with records=200 (the
housekeeping interval is only persisted by a later flush) — and the buffer
afterwards contains exactly two events, "Profiler Housekeeping" followed by
the resumed "Run #1" (records=200). -/
theorem C4_scenario_amended :
    rC4.2.2 = true ∧
      rC4.2.1.committed.map (fun row => (row.state, row.records))
        = [("Run #0", some 100), ("Run #1", some 200)] ∧
      rC4.1.events.map Event.state = ["Profiler Housekeeping", "Run #1"] ∧
      (rC4.1.events.getLast?).map Event.records = some (some 200) := by decide

/-- A profiler holding one buffered event, state "S", appended at t=1. -/
def pC5 : Profiler := (mkProfiler "T5" 6).append "S" none none 1

/-- First flush of `pC5` (housekeeping at t=2, resume at t=3). -/
def rC5a : Profiler × DB × Bool := pC5.flush db0 noFail 2 3

/-- Second flush, immediately after the first, no intervening append
(housekeeping at t=4, resume at t=5). -/
def rC5b : Profiler × DB × Bool := rC5a.1.flush rC5a.2.1 noFail 4 5

/-- C5 counterexample: a second flush immediately after a first (no
intervening append) persists TWO additional rows, not exactly one, because
the buffer before the second flush contains two events (the housekeeping
event of the first flush and the resumed event), not one. -/
theorem C5_counterexample :
    rC5a.2.1.committed.length = 1 ∧ rC5a.1.events.length = 2 ∧
      rC5b.2.1.committed.length = 3 ∧
      rC5b.2.1.committed.length ≠ rC5a.2.1.committed.length + 1 := by decide

/-- C5 amended: for every profiler with a non-empty buffer, a second
successful flush immediately after a first one, with no intervening append,
persists exactly TWO additional rows (the first flush's housekeeping interval
and the resumed event), because the buffer between the flushes holds exactly
those two events. -/
theorem C5_second_flush_amended (p : Profiler) (db : DB) (t1 t2 t3 t4 : ℚ)
    (e : Event) (h : p.events.getLast? = some e) :
    ((p.flush db noFail t1 t2).1.flush (p.flush db noFail t1 t2).2.1
          noFail t3 t4).2.1.committed.length
        = (p.flush db noFail t1 t2).2.1.committed.length + 2 ∧
      (p.flush db noFail t1 t2).1.events.length = 2 := by
  rw [flush_noFail_spec p db t1 t2 e h]
  have h2 : ({ p with events := [hkEvent t1, resumedEvent e t2] } :
      Profiler).events.getLast? = some (resumedEvent e t2) := rfl
  rw [flush_noFail_spec _ _ t3 t4 _ h2]
  refine ⟨?_, rfl⟩
  show ((db.committed ++ flushRows p t1) ++
      flushRows { p with events := [hkEvent t1, resumedEvent e t2] } t3).length
    = (db.committed ++ flushRows p t1).length + 2
  rw [List.length_append (db.committed ++ flushRows p t1), flushRows_length]
  rfl

/-- Witness for C5 amended at the concrete input `pC5`. -/
theorem C5_second_flush_amended_witness :
    ((pC5.flush db0 noFail 2 3).1.flush (pC5.flush db0 noFail 2 3).2.1
          noFail 4 5).2.1.committed.length
        = (pC5.flush db0 noFail 2 3).2.1.committed.length + 2 ∧
      (pC5.flush db0 noFail 2 3).1.events.length = 2 :=
  C5_second_flush_amended pC5 db0 2 3 4 5 ⟨"S", none, none, 1, none⟩ (by decide)

/-- A profiler holding one buffered event, state "A", appended at t=1. -/
def pC7 : Profiler := (mkProfiler "T7" 10).append "A" none none 1

/-- C7: the timestamp conversion law.  (1) The conversion
`wallClock(t) = created + (t - offset)` (lines 97–98) is monotone, so for any
two events A before B whose monotonic starts satisfy `A.start ≤ B.start`
(guaranteed for a monotonic clock source), the converted wall-clock starts
satisfy the same inequality.  (2) Every row a successful flush commits
carries exactly `wallClock` of the monotonic start/end pair of an adjacent
pair of buffered events — the conversion is applied uniformly at flush time.
(3) `append` never applies the conversion: it leaves `created` and `offset`
untouched and stores the raw monotonic reading as the new event's `start`. -/
theorem C7_wallclock_conversion (p : Profiler) (db : DB) (t1 t2 a b : ℚ)
    (e : Event) (h : p.events.getLast? = some e) (hab : a ≤ b) :
    wallClock p a ≤ wallClock p b ∧
      (p.flush db noFail t1 t2).2.1.committed
        = db.committed ++
          List.zipWith
            (fun ev nxt => (⟨p.pid, ev.state, wallClock p ev.start,
              wallClock p nxt.start, ev.records, ev.comment⟩ : Row))
            (p.events ++ [hkEvent t1]) (p.events ++ [hkEvent t1]).tail ∧
      ∀ (nm : String) (c : Option String) (r : Option Int) (now : ℚ),
        (p.append nm c r now).created = p.created ∧
          (p.append nm c r now).offset = p.offset ∧
          ((p.append nm c r now).events.getLast?).map Event.start = some now := by
  refine ⟨?_, ?_, ?_⟩
  · unfold wallClock
    exact add_le_add_left (sub_le_sub_right hab _) _
  · rw [flush_noFail_spec p db t1 t2 e h]
    rfl
  · intro nm c r now
    refine ⟨(append_frame p nm c r now).2.2.2.2,
      (append_frame p nm c r now).2.2.2.1, ?_⟩
    by_cases hev : p.events = []
    · rw [append_events_empty p nm c r now hev]
      rfl
    · rw [append_events_ne p nm c r now hev, List.getLast?_concat]
      rfl

/-- Witness for C7 at the concrete input `pC7` with monotonic stamps 0 ≤ 1. -/
theorem C7_wallclock_conversion_witness :
    wallClock pC7 0 ≤ wallClock pC7 1 ∧
      (pC7.flush db0 noFail 2 3).2.1.committed
        = db0.committed ++
          List.zipWith
            (fun ev nxt => (⟨pC7.pid, ev.state, wallClock pC7 ev.start,
              wallClock pC7 nxt.start, ev.records, ev.comment⟩ : Row))
            (pC7.events ++ [hkEvent 2]) (pC7.events ++ [hkEvent 2]).tail ∧
      ∀ (nm : String) (c : Option String) (r : Option Int) (now : ℚ),
        (pC7.append nm c r now).created = pC7.created ∧
          (pC7.append nm c r now).offset = pC7.offset ∧
          ((pC7.append nm c r now).events.getLast?).map Event.start = some now :=
  C7_wallclock_conversion pC7 db0 2 3 0 1 ⟨"A", none, none, 1, none⟩
    (by decide) (by decide)

/-- A profiler holding one buffered event, state "W", appended at t=1. -/
def pC8 : Profiler := (mkProfiler "T8" 7).append "W" none none 1

/-- Scope exit of `pC8` during which the flush's first INSERT raises. -/
def rC8 : Profiler × DB × Bool := pC8.exit db0 ⟨some 0, false⟩ 2 3

/-- C8 counterexample: `__exit__` has no `try/finally`, so when `flush`
raises, the exception propagates and neither the profile registry update nor
`self.db.close()` runs — the connection is NOT released on this exit path,
refuting the "released on all exit paths even when flush itself fails"
part of the claim. -/
theorem C8_counterexample :
    rC8.2.2 = false ∧ rC8.2.1.closed = false ∧ rC8.2.1.ended = false ∧
      rC8.2.1 = db0 := by decide

/-- C8 amended: on scope exit, `__exit__` calls `flush`; when flush succeeds
it marks the profile registry row ended, commits and releases the connection
(and the flushed rows are durably stored); but when flush raises (here: the
first INSERT fails), the exception propagates and neither the registry
update nor the connection release happens — the store is left exactly as it
was. -/
theorem C8_exit_amended (p : Profiler) (db : DB) (t1 t2 : ℚ) (e : Event)
    (h : p.events.getLast? = some e) :
    (p.exit db noFail t1 t2).2.2 = true ∧
      (p.exit db noFail t1 t2).2.1.ended = true ∧
      (p.exit db noFail t1 t2).2.1.closed = true ∧
      (p.exit db noFail t1 t2).2.1.committed.length
        = db.committed.length + p.events.length ∧
      (p.exit db ⟨some 0, false⟩ t1 t2).2.2 = false ∧
      (p.exit db ⟨some 0, false⟩ t1 t2).2.1 = db := by
  have hlen : 0 < p.events.length := List.length_pos.mpr (getLast_ne_nil h)
  have hfail := flush_insertFail_spec p db t1 t2 e 0 false h hlen
  have hsucc : p.exit db noFail t1 t2 =
      ({ p with events := [hkEvent t1, resumedEvent e t2] },
       ⟨db.committed ++ flushRows p t1, true, true⟩, true) := by
    unfold Profiler.exit
    dsimp only
    rw [flush_noFail_spec p db t1 t2 e h]
    rfl
  have hf : p.exit db ⟨some 0, false⟩ t1 t2
      = p.flush db ⟨some 0, false⟩ t1 t2 := by
    unfold Profiler.exit
    dsimp only
    rw [hfail.2.2]
    rw [if_neg (by simp : ¬ false = true)]
  rw [hsucc, hf]
  refine ⟨rfl, rfl, rfl, ?_, hfail.2.2, hfail.2.1⟩
  show (db.committed ++ flushRows p t1).length
    = db.committed.length + p.events.length
  rw [List.length_append, flushRows_length]

/-- Witness for C8 amended at the concrete input `pC8`. -/
theorem C8_exit_amended_witness :
    (pC8.exit db0 noFail 2 3).2.2 = true ∧
      (pC8.exit db0 noFail 2 3).2.1.ended = true ∧
      (pC8.exit db0 noFail 2 3).2.1.closed = true ∧
      (pC8.exit db0 noFail 2 3).2.1.committed.length
        = db0.committed.length + pC8.events.length ∧
      (pC8.exit db0 ⟨some 0, false⟩ 2 3).2.2 = false ∧
      (pC8.exit db0 ⟨some 0, false⟩ 2 3).2.1 = db0 :=
  C8_exit_amended pC8 db0 2 3 ⟨"W", none, none, 1, none⟩ (by decide)
